import Mathlib

/-!
Verification development for the EMA/RSI/MACD backtesting program
(`StockMarketBacktrading.py`).  The strategy class `AdvancedEMAStrategy`
is embedded as a pure step function over an explicit strategy/broker
state; prices and indicator values are exact rationals.
-/

namespace Backtest

/-- The `params` dict of `AdvancedEMAStrategy` (src lines 33-40).  The RSI
entry threshold is not among them: the code compares against the literal
50 at line 58. -/
structure Params where
  short_period : Nat
  long_period : Nat
  rsi_period : Nat
  macd1 : Nat
  macd2 : Nat
  macdsig : Nat
  stop_loss : ℚ
  take_profit : ℚ
deriving DecidableEq

/-- The default parameter values from src lines 33-40:
`stop_loss = 0.95` (5% loss), `take_profit = 1.10` (10% profit). -/
def params : Params := ⟨8, 21, 14, 12, 26, 9, 95/100, 110/100⟩

/-- Side of an order: `self.buy()` or `self.sell()`. -/
inductive Side where
  | buy
  | sell
deriving DecidableEq

/-- An order as submitted by the strategy.  Both call sites
(src lines 59 and 67) pass no size argument, so `sizeArg` — the explicit
size handed to `buy()`/`sell()` — is always `none` and the quantity is
left to the broker's default fixed-size sizer. -/
structure Order where
  side : Side
  sizeArg : Option ℚ
deriving DecidableEq

/-- One bar as seen by `next()`: the bar's prices together with the values
the backtrader indicator lines supply at that bar (`self.short_ema[0]`,
`self.long_ema[0]`, `self.rsi[0]`, `self.macd.macd[0]`,
`self.macd.signal[0]`).  `next` is only called once every indicator has
its minimum period of history, so all values are present. -/
structure BarInfo where
  openPrice : ℚ
  close : ℚ
  emaShort : ℚ
  emaLong : ℚ
  rsi : ℚ
  macdLine : ℚ
  macdSignal : ℚ
deriving DecidableEq

/-- Strategy-plus-broker state threaded through the run.  `order` is the
truthiness of `self.order` (src lines 49, 53): it becomes true when an
order is submitted and — since the strategy defines no `notify_order` —
is never reset.  `pending` is the broker-side unfilled order; `pos` the
position size on the first data feed; `buyPrice` is `self.buy_price`
(src lines 50, 60); `cash` the broker cash. -/
structure StratState where
  order : Bool
  pending : Option Side
  pos : ℚ
  buyPrice : Option ℚ
  cash : ℚ
deriving DecidableEq

/-- Initial state: `self.order = None`, flat, `self.buy_price = None`
(src lines 49-50), cash 100000 (src line 92). -/
def init : StratState := ⟨false, none, 0, none, 100000⟩

/-- The decision body of `AdvancedEMAStrategy.next` (src lines 52-67) as a
pure function from state and bar to the submitted order, if any: return
early while `self.order` is set; when flat, buy on
`short_ema[0] > long_ema[0] and rsi[0] > 50 and macd[0] > signal[0]`;
otherwise sell on `close[0] <= buy_price*stop_loss or
close[0] >= buy_price*take_profit or short_ema[0] < long_ema[0]`.
A `buyPrice` of `none` in the non-flat branch would be a Python
`TypeError`; the run invariant shows it is unreachable. -/
def nextAction (s : StratState) (b : BarInfo) : Option Order :=
  if s.order then none
  else if s.pos = 0 then
    if b.emaShort > b.emaLong ∧ b.rsi > 50 ∧ b.macdLine > b.macdSignal then
      some ⟨Side.buy, none⟩
    else none
  else
    match s.buyPrice with
    | some bp =>
        if b.close ≤ bp * params.stop_loss ∨ b.close ≥ bp * params.take_profit ∨
            b.emaShort < b.emaLong then
          some ⟨Side.sell, none⟩
        else none
    | none => none

/-- The state change `next` itself performs (src lines 59-60, 67): on a
buy the strategy stores the returned order object in `self.order` and the
decision bar's close in `self.buy_price`; on a sell only `self.order` is
stored. -/
def applyNext (s : StratState) (b : BarInfo) : StratState :=
  match nextAction s b with
  | some ⟨Side.buy, _⟩ =>
      { s with order := true, pending := some Side.buy, buyPrice := some b.close }
  | some ⟨Side.sell, _⟩ =>
      { s with order := true, pending := some Side.sell }
  | none => s

/-- Modelled from the spec: the Broker Account Simulator resolving the
pending order on the next bar (spec section 4.3 and the PendingOrder
model; the broker itself is backtrader library code, not under src).  A
market order fills at the bar's open with proportional commission
(`setcommission(commission=0.001)`, src line 93) and the broker default
fixed stake of 1 unit, since no size was requested.  Filling clears the
broker-side pending order but does not touch the strategy's `self.order`
attribute. -/
def fill (s : StratState) (b : BarInfo) : StratState :=
  match s.pending with
  | some Side.buy =>
      { s with pending := none, pos := s.pos + 1,
               cash := s.cash - b.openPrice * (1 + 1/1000) }
  | some Side.sell =>
      { s with pending := none, pos := s.pos - 1,
               cash := s.cash + b.openPrice * (1 - 1/1000) }
  | none => s

/-- One bar of the simulation loop: the broker first resolves any pending
order at the bar's open, then `next` runs on the same bar. -/
def step (s : StratState) (b : BarInfo) : StratState :=
  applyNext (fill s b) b

/-- State after processing a whole bar sequence. -/
def runState (s : StratState) (bars : List BarInfo) : StratState :=
  bars.foldl step s

/-- All orders the strategy submits along a run, in order. -/
def runEmits : StratState → List BarInfo → List Order
  | _, [] => []
  | s, b :: bs =>
      (nextAction (fill s b) b).toList ++ runEmits (applyNext (fill s b) b) bs

/-- One synchronized multi-data iteration (src lines 96-98 add a feed per
ticker): cerebro advances every feed one bar and calls `next` once; the
strategy reads only `self.data`, which is the FIRST feed, so the step
consults only the first component of the pair. -/
def stepMulti (s : StratState) (p : BarInfo × BarInfo) : StratState :=
  step s p.1

/-- State after a two-feed run. -/
def runMulti (s : StratState) (ps : List (BarInfo × BarInfo)) : StratState :=
  ps.foldl stepMulti s

/-- Orders submitted along a two-feed run, tagged with the index of the
data feed they target: `self.buy()` and `self.sell()` default to
`self.data`, feed 0, so every emission carries tag 0. -/
def runEmitsMulti : StratState → List (BarInfo × BarInfo) → List (Nat × Order)
  | _, [] => []
  | s, p :: ps =>
      ((nextAction (fill s p.1) p.1).map fun o => (0, o)).toList
        ++ runEmitsMulti (applyNext (fill s p.1) p.1) ps

/-- The orders aimed at feed `i` in a tagged emission log. -/
def ordersFor (i : Nat) (l : List (Nat × Order)) : List (Nat × Order) :=
  l.filter fun e => e.1 == i

/-- Bar-to-bar close differences `close[t] - close[t-1]`. -/
def diffs (closes : List ℚ) : List ℚ :=
  List.zipWith (fun a b => a - b) closes.tail closes

/-- Upward move of one difference (gain part). -/
def upday (d : ℚ) : ℚ := max d 0

/-- Downward move of one difference (loss part, as a positive number). -/
def downday (d : ℚ) : ℚ := max (-d) 0

/-- Simple moving average of the last `p` entries of a list. -/
def smaLast (p : Nat) (xs : List ℚ) : ℚ :=
  (xs.drop (xs.length - p)).sum / p

/-- RSI of the final bar as the code computes it: src line 45 selects
`bt.indicators.RSI_SMA`, the Cutler variant, which smooths average gain
and average loss with a SIMPLE moving average over the period; the value
is `100 - 100/(1 + avgGain/avgLoss)`, and 100 when the average loss is 0.
`none` while fewer than `p` differences exist (warm-up). -/
def rsiSMA (p : Nat) (closes : List ℚ) : Option ℚ :=
  let ds := diffs closes
  if ds.length < p then none
  else
    let g := smaLast p (ds.map upday)
    let l := smaLast p (ds.map downday)
    some (if l = 0 then 100 else 100 - 100 / (1 + g / l))

/-- Wilder smoothing: a seed, then `avg = (avg*(p-1) + x)/p` per value. -/
def wilderAvg (p : Nat) (seed : ℚ) (xs : List ℚ) : ℚ :=
  xs.foldl (fun a x => (a * ((p : ℚ) - 1) + x) / p) seed

/-- Modelled from the spec: the Wilder-smoothed RSI the spec describes in
section 4.1, as the reference against which `rsiSMA` is compared: average
gain and loss are seeded by a simple average over the first `p`
differences and then Wilder-smoothed; same final formula. -/
def rsiWilder (p : Nat) (closes : List ℚ) : Option ℚ :=
  let ds := diffs closes
  if ds.length < p then none
  else
    let g := wilderAvg p (smaLast p ((ds.take p).map upday)) ((ds.drop p).map upday)
    let l := wilderAvg p (smaLast p ((ds.take p).map downday)) ((ds.drop p).map downday)
    some (if l = 0 then 100 else 100 - 100 / (1 + g / l))

/-- Modelled from the spec: the position-sizing rule claimed in spec
section 4.2, `size = cash * riskFraction / (entryPrice - stopPrice)` with
`riskFraction = 0.02`, floored at 0 and capped so that
`size * entryPrice <= cash`. -/
def specRiskSize (cash entryPrice stopPrice : ℚ) : ℚ :=
  min (max (cash * (2/100) / (entryPrice - stopPrice)) 0) (cash / entryPrice)

/-- Python `dict.get(key, None)` over an analysis dict whose values may
themselves be `None`: backtrader's SharpeRatio analyzer stores
`sharperatio = None` when the ratio cannot be computed (e.g. zero
variance of daily returns). -/
def dictGet (d : List (String × Option ℚ)) (k : String) : Option ℚ :=
  ((d.find? fun e => e.1 == k).map fun e => e.2).join

/-- The f-string of src line 116: applying the float format spec `.2f` to
`None` raises `TypeError` in Python; a number is formatted normally. -/
def fmtSharpe : Option ℚ → Except String ℚ
  | some v => Except.ok v
  | none =>
      Except.error "TypeError: unsupported format string passed to NoneType.__format__"

/-- Src lines 110 and 116 composed: fetch the Sharpe ratio with
`.get("sharperatio", None)` and format it for printing. -/
def reportSharpe (analysis : List (String × Option ℚ)) : Except String ℚ :=
  fmtSharpe (dictGet analysis "sharperatio")

/-! Helper lemmas about the step function. -/

lemma fill_order_eq (s : StratState) (b : BarInfo) : (fill s b).order = s.order := by
  obtain ⟨o, p, q, bp, c⟩ := s
  cases p with
  | none => rfl
  | some sd => cases sd <;> rfl

lemma fill_buyPrice_eq (s : StratState) (b : BarInfo) :
    (fill s b).buyPrice = s.buyPrice := by
  obtain ⟨o, p, q, bp, c⟩ := s
  cases p with
  | none => rfl
  | some sd => cases sd <;> rfl

lemma fill_of_pending_none (s : StratState) (b : BarInfo) (h : s.pending = none) :
    fill s b = s := by
  obtain ⟨o, p, q, bp, c⟩ := s
  cases h
  rfl

lemma nextAction_of_order (s : StratState) (b : BarInfo) (h : s.order = true) :
    nextAction s b = none := by
  simp [nextAction, h]

lemma applyNext_of_none (s : StratState) (b : BarInfo) (h : nextAction s b = none) :
    applyNext s b = s := by
  unfold applyNext
  rw [h]

lemma applyNext_order_of_some (s : StratState) (b : BarInfo) (o : Order)
    (h : nextAction s b = some o) : (applyNext s b).order = true := by
  unfold applyNext
  rw [h]
  obtain ⟨sd, z⟩ := o
  cases sd <;> rfl

lemma run_after_order : ∀ (bars : List BarInfo) (s : StratState), s.order = true →
    (runState s bars).order = true ∧ runEmits s bars = [] := by
  intro bars
  induction bars with
  | nil => exact fun s h => ⟨h, rfl⟩
  | cons b bs ih =>
      intro s h
      have h1 : (fill s b).order = true := by rw [fill_order_eq, h]
      have h2 : nextAction (fill s b) b = none := nextAction_of_order _ _ h1
      have h3 : applyNext (fill s b) b = fill s b := applyNext_of_none _ _ h2
      refine ⟨?_, ?_⟩
      · have := (ih (fill s b) h1).1
        simpa [runState, step, h3] using this
      · simp [runEmits, h2, h3, (ih (fill s b) h1).2]

lemma runEmits_from_ready : ∀ (bars : List BarInfo) (s : StratState),
    s.order = false → s.pending = none → s.pos = 0 →
    (runEmits s bars).length ≤ 1 ∧ ∀ o ∈ runEmits s bars, o.side = Side.buy := by
  intro bars
  induction bars with
  | nil => intro s _ _ _; simp [runEmits]
  | cons b bs ih =>
      intro s ho hp hq
      have hfill : fill s b = s := fill_of_pending_none s b hp
      by_cases hc : b.emaShort > b.emaLong ∧ b.rsi > 50 ∧ b.macdLine > b.macdSignal
      · have hna : nextAction s b = some ⟨Side.buy, none⟩ := by
          simp [nextAction, ho, hq, hc]
        have horder : (applyNext s b).order = true := applyNext_order_of_some _ _ _ hna
        have hrest := (run_after_order bs (applyNext s b) horder).2
        constructor
        · simp [runEmits, hfill, hna, hrest]
        · intro o hm
          simp [runEmits, hfill, hna, hrest] at hm
          rw [hm]
      · have hna : nextAction s b = none := by
          simp [nextAction, ho, hq, hc]
        have happ : applyNext s b = s := applyNext_of_none _ _ hna
        have hrec := ih s ho hp hq
        constructor
        · simpa [runEmits, hfill, hna, happ] using hrec.1
        · intro o hm
          exact hrec.2 o (by simpa [runEmits, hfill, hna, happ] using hm)

/-- Reachability invariant of the simulation loop: a run is always in one
of three phases — ready (no order ever submitted, flat, `buy_price`
unset), one bar of latency with the buy pending, or holding the filled
position with `self.order` permanently set. -/
def Inv (s : StratState) : Prop :=
  (s.order = false ∧ s.pending = none ∧ s.pos = 0 ∧ s.buyPrice = none)
  ∨ (s.order = true ∧ s.pending = some Side.buy ∧ s.pos = 0 ∧
      ∃ c, s.buyPrice = some c ∧ 0 < c)
  ∨ (s.order = true ∧ s.pending = none ∧ s.pos = 1 ∧
      ∃ c, s.buyPrice = some c ∧ 0 < c)

lemma inv_init : Inv init := Or.inl ⟨rfl, rfl, rfl, rfl⟩

lemma inv_step (s : StratState) (b : BarInfo) (hb : 0 < b.close) (h : Inv s) :
    Inv (step s b) := by
  rcases h with ⟨h1, h2, h3, h4⟩ | ⟨h1, h2, h3, c, hbp, hcp⟩ | ⟨h1, h2, h3, c, hbp, hcp⟩
  · have hfill : fill s b = s := fill_of_pending_none s b h2
    by_cases hc : b.emaShort > b.emaLong ∧ b.rsi > 50 ∧ b.macdLine > b.macdSignal
    · have hna : nextAction s b = some ⟨Side.buy, none⟩ := by
        simp [nextAction, h1, h3, hc]
      refine Or.inr (Or.inl ?_)
      unfold step
      rw [hfill]
      unfold applyNext
      rw [hna]
      exact ⟨rfl, rfl, h3, b.close, rfl, hb⟩
    · have hna : nextAction s b = none := by
        simp [nextAction, h1, h3, hc]
      unfold step
      rw [hfill, applyNext_of_none _ _ hna]
      exact Or.inl ⟨h1, h2, h3, h4⟩
  · have hfill : fill s b =
        { s with pending := none, pos := s.pos + 1,
                 cash := s.cash - b.openPrice * (1 + 1/1000) } := by
      unfold fill
      rw [h2]
    have h1' : (fill s b).order = true := by rw [fill_order_eq]; exact h1
    have hna : nextAction (fill s b) b = none := nextAction_of_order _ _ h1'
    refine Or.inr (Or.inr ?_)
    unfold step
    rw [applyNext_of_none _ _ hna, hfill]
    exact ⟨h1, rfl, by simp [h3], c, hbp, hcp⟩
  · have hfill : fill s b = s := fill_of_pending_none s b h2
    have hna : nextAction s b = none := nextAction_of_order _ _ h1
    unfold step
    rw [hfill, applyNext_of_none _ _ hna]
    exact Or.inr (Or.inr ⟨h1, h2, h3, c, hbp, hcp⟩)

lemma inv_run : ∀ (bars : List BarInfo) (s : StratState), Inv s →
    (∀ b ∈ bars, 0 < b.close) → Inv (runState s bars) := by
  intro bars
  induction bars with
  | nil => exact fun s h _ => h
  | cons b bs ih =>
      intro s h hpos
      have hb : 0 < b.close := hpos b (List.mem_cons_self b bs)
      have hrest : ∀ x ∈ bs, 0 < x.close := fun x hx => hpos x (List.mem_cons_of_mem b hx)
      have := ih (step s b) (inv_step s b hb h) hrest
      simpa [runState] using this

/-! Claim theorems. -/

/-- Claim C1 (code bug at the clearing half of the claim): run the entry
bar (signal fires, buy submitted, `buy_price := 100`) and the next bar
(the broker fills the buy, so the position is open and no broker-side
order remains outstanding).  The order is resolved, yet `self.order` is
still set — the strategy defines no `notify_order` to clear it — so on a
third bar whose close 50 is far below the stop `100 * 0.95` the decision
function still returns no action. -/
theorem c1_pending_never_cleared :
    (runState init [⟨100, 100, 2, 1, 60, 1, 0⟩, ⟨101, 102, 2, 1, 60, 1, 0⟩]).order = true
    ∧ (runState init [⟨100, 100, 2, 1, 60, 1, 0⟩, ⟨101, 102, 2, 1, 60, 1, 0⟩]).pending = none
    ∧ (runState init [⟨100, 100, 2, 1, 60, 1, 0⟩, ⟨101, 102, 2, 1, 60, 1, 0⟩]).pos = 1
    ∧ (runState init [⟨100, 100, 2, 1, 60, 1, 0⟩, ⟨101, 102, 2, 1, 60, 1, 0⟩]).buyPrice = some 100
    ∧ ((50 : ℚ) ≤ 100 * params.stop_loss)
    ∧ nextAction (runState init [⟨100, 100, 2, 1, 60, 1, 0⟩, ⟨101, 102, 2, 1, 60, 1, 0⟩])
        ⟨90, 50, 0, 1, 10, 0, 1⟩ = none := by
  norm_num [runState, step, fill, applyNext, nextAction, init, params]

/-- Claim C2: when `self.order` is unset and the position is flat, `next`
submits a buy order if and only if all three strict comparisons hold —
`short_ema > long_ema`, `rsi > 50` (the hard-coded threshold, inside the
45-50 range the claim allows) and `macd > signal`; equality in any
comparison therefore yields no entry. -/
theorem c2_entry_iff (s : StratState) (b : BarInfo)
    (ho : s.order = false) (hp : s.pos = 0) :
    nextAction s b = some ⟨Side.buy, none⟩ ↔
      (b.emaShort > b.emaLong ∧ b.rsi > 50 ∧ b.macdLine > b.macdSignal) := by
  by_cases hc : b.emaShort > b.emaLong ∧ b.rsi > 50 ∧ b.macdLine > b.macdSignal
  · simp [nextAction, ho, hp, hc]
  · simp [nextAction, ho, hp, hc]

/-- Witness for C2 at a concrete flat state and bar. -/
theorem c2_entry_iff_witness :
    nextAction init ⟨10, 100, 2, 1, 60, 1, 0⟩ = some ⟨Side.buy, none⟩ :=
  (c2_entry_iff init ⟨10, 100, 2, 1, 60, 1, 0⟩ rfl rfl).mpr (by norm_num)

/-- Claim C3: when `self.order` is unset and the position is long, `next`
submits a (full, unsized) sell order if and only if at least one of
`close <= buy_price*0.95` (non-strict), `close >= buy_price*1.10`
(non-strict), `short_ema < long_ema` (strict) holds. -/
theorem c3_exit_iff (s : StratState) (b : BarInfo) (bp : ℚ)
    (ho : s.order = false) (hp : 0 < s.pos) (hb : s.buyPrice = some bp) :
    nextAction s b = some ⟨Side.sell, none⟩ ↔
      (b.close ≤ bp * (95/100) ∨ b.close ≥ bp * (110/100) ∨ b.emaShort < b.emaLong) := by
  have hp0 : ¬ s.pos = 0 := ne_of_gt hp
  by_cases hc : b.close ≤ bp * (95/100) ∨ b.close ≥ bp * (110/100) ∨ b.emaShort < b.emaLong
  · simp [nextAction, ho, hp0, hb, params, hc]
  · simp [nextAction, ho, hp0, hb, params, hc]

/-- Witness for C3 at a concrete long state and a bar at the stop. -/
theorem c3_exit_iff_witness :
    nextAction ⟨false, none, 1, some 100, 0⟩ ⟨0, 94, 5, 1, 50, 0, 0⟩ =
      some ⟨Side.sell, none⟩ :=
  (c3_exit_iff ⟨false, none, 1, some 100, 0⟩ ⟨0, 94, 5, 1, 50, 0, 0⟩ 100
    rfl (by norm_num) rfl).mpr (by norm_num)

/-- Claim C4 is false of the code: on an entry the submitted order carries
no size argument at all (`self.buy()` at src line 59), whereas the spec
formula at cash 100000, entry 100, stop 95 requires 400 units; the broker
default stake that actually fills is 1 unit, not 400. -/
theorem c4_no_risk_sizing_counterexample :
    nextAction init ⟨100, 100, 2, 1, 60, 1, 0⟩ = some ⟨Side.buy, none⟩
    ∧ specRiskSize init.cash 100 (100 * params.stop_loss) = 400
    ∧ (⟨Side.buy, none⟩ : Order).sizeArg ≠
        some (specRiskSize init.cash 100 (100 * params.stop_loss))
    ∧ (fill { init with pending := some Side.buy } ⟨100, 100, 2, 1, 60, 1, 0⟩).pos = 1
    ∧ (1 : ℚ) ≠ specRiskSize init.cash 100 (100 * params.stop_loss) := by
  have hsize : specRiskSize init.cash 100 (100 * params.stop_loss) = 400 := by
    unfold specRiskSize init params
    norm_num
  refine ⟨by norm_num [nextAction, init], hsize, by rw [hsize]; exact Option.noConfusion,
    by norm_num [fill, init], by rw [hsize]; norm_num⟩

/-- Claim C4 amended: every entry order is submitted with no explicit
size — `next` passes no size to `buy()` and performs no risk-based sizing;
the quantity is left to the broker's default fixed-size sizer. -/
theorem c4_amended_unsized_entry (s : StratState) (b : BarInfo)
    (ho : s.order = false) (hp : s.pos = 0) (h : nextAction s b ≠ none) :
    nextAction s b = some ⟨Side.buy, none⟩ := by
  by_cases hc : b.emaShort > b.emaLong ∧ b.rsi > 50 ∧ b.macdLine > b.macdSignal
  · simp [nextAction, ho, hp, hc]
  · exact absurd (by simp [nextAction, ho, hp, hc]) h

/-- Witness for the amended C4 at a concrete entry. -/
theorem c4_amended_unsized_entry_witness :
    nextAction init ⟨100, 100, 2, 1, 60, 1, 0⟩ = some ⟨Side.buy, none⟩ :=
  c4_amended_unsized_entry init ⟨100, 100, 2, 1, 60, 1, 0⟩ rfl rfl
    (by norm_num [nextAction, init]; simp)

/-- Claim C5: once `self.order` is set it stays set for the rest of any
run and no further order is ever emitted; consequently a full run from
the initial state emits at most one order, and every emitted order is a
buy — so a position entered by that order is never exited by the
strategy. -/
theorem c5_at_most_one_order :
    (∀ (s : StratState) (bars : List BarInfo), s.order = true →
        (runState s bars).order = true ∧ runEmits s bars = [])
    ∧ (∀ bars : List BarInfo,
        (runEmits init bars).length ≤ 1 ∧ ∀ o ∈ runEmits init bars, o.side = Side.buy) :=
  ⟨fun s bars h => run_after_order bars s h,
   fun bars => runEmits_from_ready bars init rfl rfl rfl⟩

/-- Witness for C5: with `self.order` set, a bar full of entry and exit
signals emits nothing; and a one-bar run from the start emits at most one
order. -/
theorem c5_at_most_one_order_witness :
    runEmits { init with order := true } [⟨1, 1, 9, 1, 99, 1, 0⟩] = []
    ∧ (runEmits init [⟨1, 1, 9, 1, 99, 1, 0⟩]).length ≤ 1 :=
  ⟨(c5_at_most_one_order.1 { init with order := true } [⟨1, 1, 9, 1, 99, 1, 0⟩] rfl).2,
   (c5_at_most_one_order.2 [⟨1, 1, 9, 1, 99, 1, 0⟩]).1⟩

/-- Claim C6 is false of the code: at the code's period 14, the
simple-moving-average RSI the code selects (`RSI_SMA`, src line 45) and
the Wilder-smoothed RSI the claim describes disagree on a concrete close
series — one early spike followed by steady one-point losses gives
`RSI_SMA = 0` while the Wilder RSI still remembers the spike, 3640/73. -/
theorem c6_rsi_not_wilder_counterexample :
    rsiSMA params.rsi_period
        [100, 114, 113, 112, 111, 110, 109, 108, 107, 106, 105, 104, 103, 102, 101, 100]
      = some 0
    ∧ rsiWilder params.rsi_period
        [100, 114, 113, 112, 111, 110, 109, 108, 107, 106, 105, 104, 103, 102, 101, 100]
      = some (3640/73)
    ∧ rsiSMA params.rsi_period
        [100, 114, 113, 112, 111, 110, 109, 108, 107, 106, 105, 104, 103, 102, 101, 100]
      ≠ rsiWilder params.rsi_period
        [100, 114, 113, 112, 111, 110, 109, 108, 107, 106, 105, 104, 103, 102, 101, 100] := by
  refine ⟨?_, ?_, ?_⟩
  · norm_num [rsiSMA, diffs, smaLast, upday, downday, max_def, params]
  · norm_num [rsiWilder, wilderAvg, diffs, smaLast, upday, downday, max_def, params]
  · norm_num [rsiSMA, rsiWilder, wilderAvg, diffs, smaLast, upday, downday, max_def, params]

/-- Claim C6 amended: the RSI is smoothed with a simple moving average of
gains and losses (`RSI_SMA`, the Cutler variant), not Wilder smoothing;
the final formula `100 - 100/(1+avgGain/avgLoss)` with 100 at zero
average loss is shared, so the two computations coincide exactly on the
seed bar — a history of exactly period-many differences — and only the
smoothing of later bars differs. -/
theorem c6_amended_rsi_sma (closes : List ℚ)
    (h : (diffs closes).length = params.rsi_period) :
    rsiSMA params.rsi_period closes = rsiWilder params.rsi_period closes := by
  have hlt : ¬ (diffs closes).length < params.rsi_period := by
    rw [h]
    exact lt_irrefl _
  have htake : (diffs closes).take params.rsi_period = diffs closes :=
    List.take_of_length_le (le_of_eq h)
  have hdrop : (diffs closes).drop params.rsi_period = [] :=
    List.drop_eq_nil_of_le (le_of_eq h)
  simp [rsiSMA, rsiWilder, hlt, htake, hdrop, wilderAvg]

/-- Witness for the amended C6 on a 15-close history (exactly 14
differences, the code's RSI period). -/
theorem c6_amended_rsi_sma_witness :
    rsiSMA params.rsi_period
        [100, 101, 102, 103, 104, 105, 106, 107, 108, 109, 110, 111, 112, 113, 114]
      = rsiWilder params.rsi_period
        [100, 101, 102, 103, 104, 105, 106, 107, 108, 109, 110, 111, 112, 113, 114] :=
  c6_amended_rsi_sma
    [100, 101, 102, 103, 104, 105, 106, 107, 108, 109, 110, 111, 112, 113, 114]
    (by norm_num [diffs, params])

/-- Claim C7: on any run over bars with positive closes, whenever the
position is open the stored entry reference `buy_price` is a positive
close with `buy_price*0.95 < buy_price < buy_price*1.10` — the stop sits
strictly below and the target strictly above the entry price; and in any
flat state the decision is independent of `buy_price`, i.e. no
stop/target threshold is consulted while flat. -/
theorem c7_risk_invariant (bars : List BarInfo) (hpos : ∀ b ∈ bars, 0 < b.close) :
    ((runState init bars).pos ≠ 0 →
      ∃ c, (runState init bars).buyPrice = some c ∧ 0 < c
        ∧ c * params.stop_loss < c ∧ c < c * params.take_profit)
    ∧ (∀ (s : StratState) (b : BarInfo) (bp : Option ℚ), s.pos = 0 →
        nextAction { s with buyPrice := bp } b = nextAction s b) := by
  constructor
  · intro hne
    have hinv := inv_run bars init inv_init hpos
    rcases hinv with ⟨_, _, h3, _⟩ | ⟨_, _, h3, _⟩ | ⟨_, _, _, c, hbp, hc⟩
    · exact absurd h3 hne
    · exact absurd h3 hne
    · refine ⟨c, hbp, hc, ?_, ?_⟩
      · rw [show params.stop_loss = 95/100 from rfl]
        nlinarith
      · rw [show params.take_profit = 110/100 from rfl]
        nlinarith
  · intro s b bp h
    by_cases ho : s.order
    · simp [nextAction, ho]
    · simp [nextAction, ho, h]

/-- Witness for C7: the entry at bar one is filled at bar two; the open
position carries entry price 100 with stop 95 below and target 110
above. -/
theorem c7_risk_invariant_witness :
    ∃ c, (runState init [⟨100, 100, 2, 1, 60, 1, 0⟩, ⟨101, 102, 2, 1, 60, 1, 0⟩]).buyPrice
          = some c
      ∧ 0 < c ∧ c * params.stop_loss < c ∧ c < c * params.take_profit :=
  (c7_risk_invariant [⟨100, 100, 2, 1, 60, 1, 0⟩, ⟨101, 102, 2, 1, 60, 1, 0⟩]
      (by norm_num)).1
    (by norm_num [runState, step, fill, applyNext, nextAction, init, params])

/-- Claim C8 is false of the code: with two data feeds, a bar pair on
which the second feed satisfies the entry rule (it would trigger a buy in
a simulation of its own, first conjunct) while the first feed does not
produces no order at all for any instrument, and the run state is
unchanged when the second feed's bars are replaced wholesale — only the
first feed is consulted or traded. -/
theorem c8_only_first_feed_counterexample :
    nextAction init ⟨100, 100, 3, 1, 70, 2, 0⟩ = some ⟨Side.buy, none⟩
    ∧ runEmitsMulti init [(⟨100, 100, 1, 2, 10, 0, 1⟩, ⟨100, 100, 3, 1, 70, 2, 0⟩)] = []
    ∧ runMulti init [(⟨100, 100, 1, 2, 10, 0, 1⟩, ⟨100, 100, 3, 1, 70, 2, 0⟩)]
        = runMulti init [(⟨100, 100, 1, 2, 10, 0, 1⟩, ⟨1, 1, 1, 1, 1, 1, 1⟩)] := by
  refine ⟨by norm_num [nextAction, init], ?_, ?_⟩
  · norm_num [runEmitsMulti, fill, applyNext, nextAction, init]
  · norm_num [runMulti, stepMulti, step, fill, applyNext, nextAction, init]

/-- Claim C8 amended: a multi-feed run is exactly the single-feed run
over the first feed's bars — the second feed influences nothing — and
every submitted order targets feed 0, so no other instrument is ever
traded. -/
theorem c8_amended_first_feed_only (ps : List (BarInfo × BarInfo)) (s : StratState) :
    runMulti s ps = runState s (ps.map Prod.fst)
    ∧ ∀ i, i ≠ 0 → ordersFor i (runEmitsMulti s ps) = [] := by
  induction ps generalizing s with
  | nil => exact ⟨rfl, fun i _ => rfl⟩
  | cons p ps ih =>
      refine ⟨?_, ?_⟩
      · have := (ih (step s p.1)).1
        simpa [runMulti, runState, stepMulti] using this
      · intro i hi
        have hrec := (ih (applyNext (fill s p.1) p.1)).2 i hi
        have h0 : ¬ ((0 : Nat) == i) = true := by
          simp
          omega
        cases hna : nextAction (fill s p.1) p.1 with
        | none => simpa [runEmitsMulti, ordersFor, hna] using hrec
        | some o => simpa [runEmitsMulti, ordersFor, hna, h0] using hrec

/-- Witness for the amended C8 on a concrete one-pair run: feed 1 gets no
order even though its bar satisfies the entry rule, and the run equals
the single-feed run over feed 0. -/
theorem c8_amended_first_feed_only_witness :
    ordersFor 1 (runEmitsMulti init [(⟨100, 100, 2, 1, 60, 1, 0⟩, ⟨5, 5, 9, 1, 99, 9, 0⟩)]) = []
    ∧ runMulti init [(⟨100, 100, 2, 1, 60, 1, 0⟩, ⟨5, 5, 9, 1, 99, 9, 0⟩)]
        = runState init [⟨100, 100, 2, 1, 60, 1, 0⟩] :=
  ⟨(c8_amended_first_feed_only
      [(⟨100, 100, 2, 1, 60, 1, 0⟩, ⟨5, 5, 9, 1, 99, 9, 0⟩)] init).2 1 (by norm_num),
   (c8_amended_first_feed_only
      [(⟨100, 100, 2, 1, 60, 1, 0⟩, ⟨5, 5, 9, 1, 99, 9, 0⟩)] init).1⟩

/-- Claim C9 (code bug): when the Sharpe analyzer leaves `sharperatio` as
None (zero-variance daily returns), src line 110's `.get` propagates the
None and src line 116's float-formatted f-string raises `TypeError`
instead of printing an undefined marker; a present numeric ratio is
reported normally. -/
theorem c9_sharpe_none_crashes :
    reportSharpe [("sharperatio", none)]
      = Except.error "TypeError: unsupported format string passed to NoneType.__format__"
    ∧ reportSharpe [("sharperatio", some (3/2))] = Except.ok (3/2) :=
  ⟨rfl, rfl⟩

/-- Claim C10: the entry reference price is the close of the decision
bar — an emitted entry stores exactly `b.close` into `buy_price`; a fill
never changes `buy_price`, whatever the fill bar's prices are; and the
exit comparisons test the bar close against `0.95` and `1.10` times that
stored decision-bar close. -/
theorem c10_ref_price :
    (∀ (s : StratState) (b : BarInfo), s.order = false → s.pos = 0 →
        nextAction s b ≠ none → (applyNext s b).buyPrice = some b.close)
    ∧ (∀ (s : StratState) (b : BarInfo), (fill s b).buyPrice = s.buyPrice)
    ∧ (∀ (s : StratState) (b : BarInfo) (bp : ℚ), s.order = false → s.pos ≠ 0 →
        s.buyPrice = some bp →
        (nextAction s b = some ⟨Side.sell, none⟩ ↔
          (b.close ≤ bp * (95/100) ∨ b.close ≥ bp * (110/100) ∨
            b.emaShort < b.emaLong))) := by
  refine ⟨?_, fill_buyPrice_eq, ?_⟩
  · intro s b ho hp hne
    by_cases hc : b.emaShort > b.emaLong ∧ b.rsi > 50 ∧ b.macdLine > b.macdSignal
    · have hna : nextAction s b = some ⟨Side.buy, none⟩ := by
        simp [nextAction, ho, hp, hc]
      unfold applyNext
      rw [hna]
    · exact absurd (by simp [nextAction, ho, hp, hc]) hne
  · intro s b bp ho hp hb
    by_cases hc : b.close ≤ bp * (95/100) ∨ b.close ≥ bp * (110/100) ∨
        b.emaShort < b.emaLong
    · simp [nextAction, ho, hp, hb, params, hc]
    · simp [nextAction, ho, hp, hb, params, hc]

/-- Witness for C10: a concrete entry stores the decision bar's close
100; a fill leaves the stored price unchanged; and with stored price 100
a close of 111 (beyond the 110 target) triggers the exit. -/
theorem c10_ref_price_witness :
    (applyNext init ⟨10, 100, 2, 1, 60, 1, 0⟩).buyPrice = some 100
    ∧ (fill { init with pending := some Side.buy } ⟨7, 8, 0, 0, 0, 0, 0⟩).buyPrice = none
    ∧ nextAction ⟨false, none, 1, some 100, 0⟩ ⟨0, 111, 5, 1, 50, 0, 0⟩
        = some ⟨Side.sell, none⟩ :=
  ⟨c10_ref_price.1 init ⟨10, 100, 2, 1, 60, 1, 0⟩ rfl rfl
      (by norm_num [nextAction, init]; simp),
   c10_ref_price.2.1 { init with pending := some Side.buy } ⟨7, 8, 0, 0, 0, 0, 0⟩,
   (c10_ref_price.2.2 ⟨false, none, 1, some 100, 0⟩ ⟨0, 111, 5, 1, 50, 0, 0⟩ 100
      rfl (by norm_num) rfl).mpr (by norm_num)⟩

end Backtest
